import Mathlib

/-!
Verification of the RESP codec and server core of a Redis-compatible
key-value server.  The Rust sources are shallowly embedded: byte buffers
become `List Nat` (one entry per byte), machine integers become `Nat`/`Int`
with explicit range conditions where they matter, `SystemTime` becomes an
explicit `now : Nat` parameter, and fallible operations return `Except`.
-/

namespace Redis

/-- RESP values, after `serde-redis/src/lib.rs` (`enum Value`).
Textual content (`SimpleString`, `SimpleError`) is kept as its byte
sequence; `BulkString(Option<Vec<u8>>)` and `Array(Option<Vec<Value>>)`
keep the null/non-null distinction with `Option`. -/
inductive Value where
  | simpleString (s : List Nat)
  | simpleError (pfx : Option (List Nat)) (msg : List Nat)
  | integer (n : Int)
  | bulkString (b : Option (List Nat))
  | array (a : Option (List Value))
  | null

/-- Codec errors, after `serde-redis/src/error.rs` (`enum RdError`).
The IO and UTF-8 variants are collapsed away by the byte-level embedding;
`Custom` keeps only a short tag of the formatted message. -/
inductive RdError where
  | invalidPfx (pos : Nat) (ty : String)
  | unknownPfx (pos : Nat) (b : Nat)
  | unterminated (pos : Nat) (ty : String)
  | invalidSeqLength (pos : Nat) (ty : String) (value : Int)
  | eof
  | custom (msg : String)
  deriving DecidableEq

/-- `utils::bytes_to_num`: base-10 positional read of a byte run where any
non-digit byte contributes 0 at its position. -/
def bytesToNum (v : List Nat) : Int :=
  (v.reverse.enum.map fun p =>
    if 48 ≤ p.2 ∧ p.2 ≤ 57 then ((p.2 - 48 : Nat) : Int) * (10 : Int) ^ p.1 else 0).sum

/-- Decimal digit bytes of a natural number (the digits of Rust's
`to_string`). -/
def natToBytes (n : Nat) : List Nat :=
  (Nat.toDigits 10 n).map Char.toNat

/-- `utils::num_to_bytes`: `v.to_string().trim_matches(['-', '+'])`, i.e.
the decimal digits of the absolute value. -/
def numToBytes (v : Int) : List Nat :=
  natToBytes v.natAbs

/-- Rust `i64::to_string` as bytes: optional minus sign then digits. -/
def intToBytes (v : Int) : List Nat :=
  (if v < 0 then [45] else []) ++ natToBytes v.natAbs

/-! ## Encoder

After `serde-redis/src/encode.rs` together with each type's `Serialize`
implementation (`simple_string.rs`, `simple_error.rs`, `integer.rs`,
`bulk_string.rs`, `array.rs`, `null.rs`). -/

mutual

/-- Byte stream produced by `to_vec` on a `Value`.

* simple string: `encode_simple_string` — `+`, bytes, CRLF;
* simple error: `-` prefix, then the raw fields `"<pfx> "` (when present),
  message, `"\r\n"`;
* integer: `encode_integer` — `:`, mandatory sign, digits of `abs`, CRLF;
* bulk string: `encode_bulk_string` — `$len\r\n<bytes>\r\n`, null is
  `$-1\r\n`;
* array: `encode_array_prefix` then the elements in order.  NOTE: for a
  null array, `impl Serialize for Array` calls `serialize_seq(Some(1))`
  and ends the sequence immediately, so the emitted bytes are `*1\r\n`
  (not `*-1\r\n`);
* null: `_\r\n`. -/
def encodeValue : Value → List Nat
  | .simpleString s => 43 :: (s ++ [13, 10])
  | .simpleError pfx msg =>
      45 :: ((match pfx with
              | some p => p ++ [32]
              | none => []) ++ msg ++ [13, 10])
  | .integer n => 58 :: (if 0 ≤ n then 43 else 45) :: (numToBytes n ++ [13, 10])
  | .bulkString (some b) => 36 :: (numToBytes b.length ++ [13, 10] ++ b ++ [13, 10])
  | .bulkString none => [36, 45, 49, 13, 10]
  | .array (some vs) =>
      42 :: (numToBytes vs.length ++ [13, 10] ++ encodeList vs)
  | .array none => [42, 49, 13, 10]
  | .null => [95, 13, 10]

/-- Elements of an array are serialized one after another
(`SerializeSeq::serialize_element`). -/
def encodeList : List Value → List Nat
  | [] => []
  | v :: vs => encodeValue v ++ encodeList vs

end

/-! ## Decoder

After `serde-redis/src/decode.rs` (`Decoder::parse_any` and friends)
composed with the `Deserialize` visitors that build a `Value`
(`deserialize_enum` with the `KEY_VALUE_ENUM` name, `ValueVisitor`,
`SimpleErrorVisitor`, `BulkStringVisitor`, `ArrayVisitor`).  The byte
cursor is embedded as the pair (remaining bytes, absolute position). -/

/-- `Collectable::collect_over_crlf`: bytes up to the first CRLF (the CRLF
is consumed) paired with the remaining bytes; when the buffer runs out
without a CRLF, everything (including a trailing lone CR) is collected. -/
def collectOverCrlf : List Nat → List Nat × List Nat
  | [] => ([], [])
  | 13 :: 10 :: rest => ([], rest)
  | b :: rest =>
      let r := collectOverCrlf rest
      (b :: r.1, r.2)

/-- `Decoder::parse_integer` (the `:` byte is already consumed): a
mandatory sign byte, then `bytes_to_num` of the run before CRLF. -/
def parseInteger (bs : List Nat) (pos : Nat) : Except RdError (Int × List Nat × Nat) :=
  match bs with
  | 43 :: rest =>
      let c := collectOverCrlf rest
      .ok (bytesToNum c.1, c.2, pos + 1 + (rest.length - c.2.length))
  | 45 :: rest =>
      let c := collectOverCrlf rest
      .ok (-1 * bytesToNum c.1, c.2, pos + 1 + (rest.length - c.2.length))
  | _ => .error (.invalidPfx pos "Integer")

/-- `Decoder::parse_bulk_string`: returns the internal length-prefixed
byte-vec handed to `BulkStringVisitor` — `[]` for a `-1` length, the
four-zero-bytes marker for a `0` length (note: the payload CRLF of an
empty bulk string is NOT consumed in this case), otherwise the length
digits left-padded with zero bytes to width 4 followed by the payload. -/
def parseBulkRaw (bs : List Nat) (pos : Nat) : Except RdError (List Nat × List Nat × Nat) :=
  match bs with
  | 36 :: rest =>
      let c := collectOverCrlf rest
      let len := c.1
      let rest1 := c.2
      let pos1 := pos + 1 + (rest.length - rest1.length)
      if len = [45, 49] then .ok ([], rest1, pos1)
      else if len = [48] then .ok ([0, 0, 0, 0], rest1, pos1)
      else
        let len4 := List.replicate (4 - len.length) 0 ++ len
        let n := (bytesToNum len4).toNat
        if rest1.length < n then .error (.custom "failed to read bulk string")
        else
          match rest1.drop n with
          | 13 :: 10 :: rest3 => .ok (len4 ++ rest1.take n, rest3, pos1 + n + 2)
          | _ => .error (.unterminated (pos1 + n) "BulkString")
  | _ => .error (.invalidPfx pos "BulkString")

/-- `BulkStringVisitor::visit_byte_buf`: fewer than 4 bytes means null;
otherwise the first 4 bytes are re-read with `bytes_to_num` as the
payload length and checked against the actual size. -/
def bulkStringFromBytes (v : List Nat) : Except RdError Value :=
  if v.length < 4 then .ok (.bulkString none)
  else
    let len := (bytesToNum (v.take 4)).toNat
    if v.length ≠ len + 4 then
      .error (.custom "invalid bulk string length produced by deserializer")
    else .ok (.bulkString (some (v.drop 4)))

/-- Uppercase ASCII letter, as in `'A' <= x && x <= 'Z'`. -/
def isUpperByte (b : Nat) : Bool := 65 ≤ b && b ≤ 90

/-- ASCII byte accepted by Rust's `char::is_whitespace`. -/
def isWhitespaceByte (b : Nat) : Bool :=
  b = 9 || b = 10 || b = 11 || b = 12 || b = 13 || b = 32

/-- `SimpleErrorVisitor::visit_string`: split at the first space when every
byte before it is an uppercase letter; the message is `trim_start`ed. -/
def simpleErrorFromBytes (v : List Nat) : Value :=
  if v = [] then .simpleError none []
  else
    match v.findIdx? (fun b => b = 32) with
    | none => .simpleError none v
    | some p =>
        if p = 0 then .simpleError none v
        else if (v.take p).all isUpperByte then
          .simpleError (some (v.take p)) ((v.drop p).dropWhile isWhitespaceByte)
        else .simpleError none v

/-- The `Concatenated` sequence access driving `ArrayVisitor`: the
remaining `n` elements are deserialized one after another with the
element parser `pa` and collected (`acc` is kept reversed). -/
def parseElemsWith
    (pa : List Nat → Nat → Except RdError (Value × List Nat × Nat)) :
    (n : Nat) → (bs : List Nat) → (pos : Nat) → (acc : List Value) →
    Except RdError (Value × List Nat × Nat)
  | 0, bs, pos, acc => .ok (.array (some acc.reverse), bs, pos)
  | n + 1, bs, pos, acc =>
      match pa bs pos with
      | .error e => .error e
      | .ok (v, rest, pos1) => parseElemsWith pa n rest pos1 (v :: acc)

/-- `Decoder::parse_any` composed with `deserialize_enum`/`ValueVisitor`,
dispatching on the peeked type byte.  `fuel` only bounds the recursion
depth through nested arrays; every nesting level consumes at least one
byte, so `input length + 1` is always enough.

NOTE (faithful to the source): in the `b'*'` arm the `*` byte is never
consumed — `parse_any` only peeked it — so the `foresee` chain for
`-1\r\n` always fails and the element count is `bytes_to_num` applied to
a run that still contains the leading `*` (a non-digit contributing 0). -/
def parseAnyV : (fuel : Nat) → (bs : List Nat) → (pos : Nat) →
    Except RdError (Value × List Nat × Nat)
  | 0, _, _ => .error (.custom "recursion fuel exhausted")
  | _ + 1, [], _ => .error .eof
  | _ + 1, 43 :: rest, pos =>
      let c := collectOverCrlf rest
      .ok (.simpleString c.1, c.2, pos + 1 + (rest.length - c.2.length))
  | _ + 1, 45 :: rest, pos =>
      let c := collectOverCrlf rest
      .ok (simpleErrorFromBytes c.1, c.2, pos + 1 + (rest.length - c.2.length))
  | _ + 1, 58 :: rest, pos =>
      match parseInteger rest (pos + 1) with
      | .error e => .error e
      | .ok (n, rest1, pos1) => .ok (.integer n, rest1, pos1)
  | _ + 1, 36 :: rest, pos =>
      match parseBulkRaw (36 :: rest) pos with
      | .error e => .error e
      | .ok (raw, rest1, pos1) =>
          match bulkStringFromBytes raw with
          | .error e => .error e
          | .ok v => .ok (v, rest1, pos1)
  | fuel + 1, 42 :: rest, pos =>
      if (42 :: rest).take 4 = [45, 49, 13, 10] then
        .ok (.array none, (42 :: rest).drop 4, pos + 4)
      else
        let c := collectOverCrlf (42 :: rest)
        let count := bytesToNum c.1
        parseElemsWith (parseAnyV fuel) count.toNat c.2
          (pos + ((42 :: rest).length - c.2.length)) []
  | _ + 1, b :: _, pos => .error (.unknownPfx pos b)

/-- `serde_redis::from_bytes::<Value>`: run the decoder from position 0;
trailing bytes after the first complete frame are ignored, as in the
source. -/
def fromBytesValue (bs : List Nat) : Except RdError Value :=
  match parseAnyV (bs.length + 1) bs 0 with
  | .error e => .error e
  | .ok (v, _, _) => .ok v

/-! ## Decidable equality for `Value`

`Value` is a nested inductive, so the instance is written by hand (it
mirrors the source's derived `PartialEq`). -/

mutual

def valueBEq : Value → Value → Bool
  | .simpleString a, .simpleString b => a == b
  | .simpleError p1 m1, .simpleError p2 m2 => p1 == p2 && m1 == m2
  | .integer a, .integer b => a == b
  | .bulkString a, .bulkString b => a == b
  | .array none, .array none => true
  | .array (some xs), .array (some ys) => valueListBEq xs ys
  | .null, .null => true
  | _, _ => false

def valueListBEq : List Value → List Value → Bool
  | [], [] => true
  | x :: xs, y :: ys => valueBEq x y && valueListBEq xs ys
  | _, _ => false

end

mutual

theorem valueBEq_iff : ∀ a b : Value, valueBEq a b = true ↔ a = b
  | .simpleString a, b => by
      cases b <;> simp [valueBEq]
  | .simpleError p1 m1, b => by
      cases b <;> simp [valueBEq]
  | .integer a, b => by
      cases b <;> simp [valueBEq]
  | .bulkString a, b => by
      cases b <;> simp [valueBEq]
  | .array none, b => by
      cases b with
      | array o => cases o <;> simp [valueBEq]
      | _ => simp [valueBEq]
  | .array (some xs), b => by
      cases b with
      | array o =>
          cases o with
          | none => simp [valueBEq]
          | some ys => simpa [valueBEq] using valueListBEq_iff xs ys
      | _ => simp [valueBEq]
  | .null, b => by
      cases b <;> simp [valueBEq]

theorem valueListBEq_iff : ∀ xs ys : List Value, valueListBEq xs ys = true ↔ xs = ys
  | [], [] => by simp [valueListBEq]
  | [], _ :: _ => by simp [valueListBEq]
  | _ :: _, [] => by simp [valueListBEq]
  | x :: xs, y :: ys => by
      simp [valueListBEq, valueBEq_iff x y, valueListBEq_iff xs ys]

end

instance : DecidableEq Value := fun a b => decidable_of_iff _ (valueBEq_iff a b)

/-! ## Storage engine

After `codecrafters-redis/src/storage/mod.rs`.  `HashMap` becomes an
association list with unique keys (`hmInsert` replaces, `hmRemove`
deletes), `SystemTime` becomes a millisecond count `now`, and the shared
mutexes disappear: every operation is a pure function of the state it
locks. -/

/-- Bytes of an ASCII string literal. -/
def strBytes (s : String) : List Nat := s.toList.map Char.toNat

/-- `HashMap::insert` on the association-list model. -/
def hmInsert {α : Type} : List (String × α) → String → α → List (String × α)
  | [], key, v => [(key, v)]
  | (k, w) :: rest, key, v =>
      if k = key then (key, v) :: rest else (k, w) :: hmInsert rest key v

/-- `HashMap::remove` on the association-list model. -/
def hmRemove {α : Type} : List (String × α) → String → List (String × α)
  | [], _ => []
  | (k, w) :: rest, key => if k = key then rest else (k, w) :: hmRemove rest key

/-- `OpError` (`storage/mod.rs`). -/
inductive OpError where
  | keyAbsent
  | typeMismatch
  | tooSmallStreamId
  | invalidStreamId
  | invalidInteger
  deriving DecidableEq

/-- `OpError::to_message`. -/
def OpError.toMessage : OpError → Value
  | .keyAbsent =>
      .simpleError (some (strBytes "KEYNOTFOUND")) (strBytes "key not found in storage")
  | .typeMismatch =>
      .simpleError (some (strBytes "WRONGTYPE"))
        (strBytes "Operation against a key holding the wrong kind of value")
  | .invalidStreamId =>
      .simpleError (some (strBytes "ERR"))
        (strBytes "The ID specified in XADD must be greater than 0-0")
  | .tooSmallStreamId =>
      .simpleError (some (strBytes "ERR"))
        (strBytes "The ID specified in XADD is equal or smaller than the target stream top item")
  | .invalidInteger =>
      .simpleError (some (strBytes "ERR"))
        (strBytes "value is not an integer or out of range")

/-- `ValueCell`: a stored value plus an optional absolute expiration
instant (milliseconds). -/
structure ValueCell where
  value : Value
  expiration : Option Nat
  deriving DecidableEq

/-- `LiveValue`. -/
inductive LiveValue where
  | live (v : Value)
  | expired
  | absent
  deriving DecidableEq

/-- `ValueCell::live_value`: live iff the expiration is absent or still in
the future (`d > SystemTime::now()`). -/
def ValueCell.liveValue (c : ValueCell) (now : Nat) : LiveValue :=
  match c.expiration with
  | some d => if now < d then .live c.value else .expired
  | none => .live c.value

/-- The string-keyed half of `StorageInner` (`data: HashMap<String, ValueCell>`). -/
abbrev KvData := List (String × ValueCell)

/-- `Storage::insert` (SET): the live duration is turned into an absolute
expiration instant; an existing cell is overwritten. -/
def storageInsert (data : KvData) (key : String) (value : Value)
    (duration : Option Nat) (now : Nat) : KvData :=
  hmInsert data key ⟨value, duration.map (now + ·)⟩

/-- `Storage::get`: a live value is returned; an expired cell is removed
from the map and reads as absent. -/
def storageGet (data : KvData) (key : String) (now : Nat) : Option Value × KvData :=
  match data.lookup key with
  | some c =>
      match c.liveValue now with
      | .live v => (some v, data)
      | .expired => (none, hmRemove data key)
      | .absent => (none, data)
  | none => (none, data)

/-! ### Array (list value) helpers

`Array::is_empty`, `is_null`, `is_null_or_empty` and `pop_front` are in
`serde-redis/src/array.rs`.  `len`, `append`, `prepend` and the element
iterator belong to the newer serde-redis revision that
`storage/mod.rs` compiles against and are not among the sources. -/

/-- `Array::is_empty`: `value().is_some_and(|x| x.is_empty())` — note a
null array is NOT empty. -/
def arrIsEmpty : Option (List Value) → Bool
  | some vs => vs.isEmpty
  | none => false

/-- `Array::is_null`. -/
def arrIsNull : Option (List Value) → Bool
  | some _ => false
  | none => true

/-- `Array::is_null_or_empty`. -/
def arrIsNullOrEmpty (a : Option (List Value)) : Bool :=
  arrIsNull a || arrIsEmpty a

/-- `Array::pop_front`: `none` on a null or empty array, otherwise the
head element together with the shortened array. -/
def arrPopFront : Option (List Value) → Option (Value × Option (List Value))
  | some (v :: vs) => some (v, some vs)
  | _ => none

/-- Modelled from the spec: `Array::len` — the number of stored elements
(§4.B "LLEN — integer length"); the method is in the serde-redis revision
missing from the sources. -/
def arrLen : Option (List Value) → Nat
  | some vs => vs.length
  | none => 0

/-- Modelled from the spec: `Array::append` — append the new elements
after the current ones (§4.B RPUSH); missing from the sources. -/
def arrAppend (a : Option (List Value)) (v : List Value) : Option (List Value) :=
  some (a.getD [] ++ v)

/-- Modelled from the spec: `Array::prepend` — place the new elements
before the current head (§4.B LPUSH); missing from the sources. -/
def arrPrepend (a : Option (List Value)) (v : List Value) : Option (List Value) :=
  some (v ++ a.getD [])

/-- The registry `lpop_blocked_task`: for the storage scan only the key of
each `LpopBlockedTask` matters; the one-shot senders are modelled by the
list of (key, value) messages an operation emits. -/
abbrev LpopWaiters := List String

/-- The waiter-draining loop at the top of `Storage::insert_list`: while
pushed elements remain and some waiter for this key exists (first by
position), pop the front element, remove that waiter and send it the
element, counting `interupted_count`. -/
def drainWaiters (key : String) :
    List Value → LpopWaiters → List (String × Value) → Nat →
    List Value × LpopWaiters × List (String × Value) × Nat
  | [], ws, sent, cnt => ([], ws, sent, cnt)
  | v :: vs, ws, sent, cnt =>
      match ws.findIdx? (fun k => k == key) with
      | some p => drainWaiters key vs (ws.eraseIdx p) (sent ++ [(key, v)]) (cnt + 1)
      | none => (v :: vs, ws, sent, cnt)

/-- `Storage::insert_list` (the storage half of LPUSH/RPUSH; the `lpush.rs`
revision calls it `append_list`).  The pushed array is always non-null, so
it is a plain element list here.  The BLPOP-waiter drain happens BEFORE
the stored cell's type is examined; the returned count is the stored
length plus the number of elements handed to waiters.  Result:
(operation result, new data, new waiters, delivered messages). -/
def insertList (data : KvData) (waiters : LpopWaiters) (key : String)
    (value : List Value) (create prepend : Bool) :
    Except OpError Nat × KvData × LpopWaiters × List (String × Value) :=
  let d := drainWaiters key value waiters [] 0
  let value1 := d.1
  let ws1 := d.2.1
  let sent := d.2.2.1
  let icnt := d.2.2.2
  match data.lookup key with
  | some cell =>
      match cell.value with
      | .array arr =>
          let arr1 := if prepend then arrPrepend arr value1 else arrAppend arr value1
          (.ok (arrLen arr1 + icnt),
           hmInsert data key ⟨.array arr1, cell.expiration⟩, ws1, sent)
      | _ => (.error .typeMismatch, data, ws1, sent)
  | none =>
      if !create then (.error .keyAbsent, data, ws1, sent)
      else
        (.ok (value1.length + icnt),
         hmInsert data key ⟨.array (some value1), none⟩, ws1, sent)

/-- `Storage::array_get_length` (LLEN; the `llen.rs` revision calls it
`get_array_length`).  NOTE: the cell's expiration is never consulted. -/
def arrayGetLength (data : KvData) (key : String) : Except OpError Nat :=
  match data.lookup key with
  | some cell =>
      match cell.value with
      | .array arr => .ok (arrLen arr)
      | _ => .error .typeMismatch
  | none => .error .keyAbsent

/-- The `count` loop of `Storage::array_pop_front`: up to `c` elements off
the front (stopping early when the list runs out). -/
def arrTakeFront : Nat → Option (List Value) → List Value × Option (List Value)
  | 0, arr => ([], arr)
  | c + 1, arr =>
      match arrPopFront arr with
      | some (v, arr1) =>
          let t := arrTakeFront c arr1
          (v :: t.1, t.2)
      | none => ([], arr)

/-- `Storage::array_pop_front` (LPOP and the immediate path of BLPOP).
NOTE: the cell's expiration is never consulted.  The outer `none` models
the `unwrap` panic the source would hit on a stored null array (lists the
server creates are always non-null). -/
def arrayPopFront (data : KvData) (key : String) (count : Option Nat) :
    Option (Except OpError (Option Value) × KvData) :=
  match data.lookup key with
  | some cell =>
      match cell.value with
      | .array arr =>
          if arrIsEmpty arr then some (.ok none, data)
          else
            match count with
            | some c =>
                let t := arrTakeFront c arr
                some (.ok (some (.array (some t.1))),
                      hmInsert data key ⟨.array t.2, cell.expiration⟩)
            | none =>
                match arrPopFront arr with
                | some (v, arr1) =>
                    some (.ok (some v), hmInsert data key ⟨.array arr1, cell.expiration⟩)
                | none => none
      | _ => some (.error .typeMismatch, data)
  | none => some (.error .keyAbsent, data)

/-- `Storage::lrange`: signed inclusive indices, negative counting from
the tail; a start before the head clamps to 0; `end2 < start2` gives an
empty array; a missing key or non-array value gives an empty array.  The
outer `none` models the usize-underflow panic of
`arr.len() - (-1 * end) as usize` when `-end > len`.  NOTE: the cell's
expiration is never consulted. -/
def lrangeOp (data : KvData) (key : String) (start endi : Int) :
    Option (Except OpError Value) :=
  match data.lookup key with
  | some ⟨.array arr, _⟩ =>
      if arrIsNullOrEmpty arr then some (.ok (.array (some [])))
      else
        let len := arrLen arr
        let start2 : Nat :=
          if 0 ≤ start then start.toNat
          else if len < start.natAbs then 0 else len - start.natAbs
        if 0 ≤ endi then
          let end2 := endi.toNat
          if end2 < start2 then some (.ok (.array (some [])))
          else some (.ok (.array (some ((arr.getD []).drop start2 |>.take (end2 - start2 + 1)))))
        else if len < endi.natAbs then none
        else
          let end2 := len - endi.natAbs
          if end2 < start2 then some (.ok (.array (some [])))
          else some (.ok (.array (some ((arr.getD []).drop start2 |>.take (end2 - start2 + 1)))))
  | _ => some (.ok (.array (some [])))

/-! ## Streams

After `codecrafters-redis/src/storage/stream.rs`; `BTreeMap<u64, _>` is a
key-sorted association list. -/

/-- `StreamId`. -/
inductive StreamId where
  | value (timeId seqId : Nat)
  | auto
  | partialAuto (timeId : Nat)
  deriving DecidableEq

/-- `BTreeMap::insert`: insert or replace, keeping keys ascending. -/
def btInsert {α : Type} : List (Nat × α) → Nat → α → List (Nat × α)
  | [], k, v => [(k, v)]
  | (k0, v0) :: rest, k, v =>
      if k < k0 then (k, v) :: (k0, v0) :: rest
      else if k = k0 then (k, v) :: rest
      else (k0, v0) :: btInsert rest k v

/-- `StreamEntry`: one time bucket. -/
structure StreamEntry where
  lastEntrySeqId : Nat
  data : List (Nat × List Value)

/-- `Stream`. -/
structure Stream where
  lastEntryTimeId : Nat
  entries : List (Nat × StreamEntry)

/-- `Stream::new`. -/
def Stream.new : Stream := ⟨0, []⟩

/-- `Stream::add_entry`. -/
def Stream.addEntry (s : Stream) (timeId seqId : Nat) (values : List Value) :
    Except OpError (StreamId × Stream) :=
  if timeId = 0 ∧ seqId = 0 then .error .invalidStreamId
  else if timeId < s.lastEntryTimeId then .error .tooSmallStreamId
  else
    match s.entries.lookup timeId with
    | some entry =>
        if seqId ≤ entry.lastEntrySeqId then .error .tooSmallStreamId
        else
          .ok (.value timeId seqId,
               { lastEntryTimeId := timeId,
                 entries := btInsert s.entries timeId
                   ⟨seqId, btInsert entry.data seqId values⟩ })
    | none =>
        .ok (.value timeId seqId,
             { lastEntryTimeId := timeId,
               entries := btInsert s.entries timeId ⟨seqId, [(seqId, values)]⟩ })

/-- `Stream::get_next_seq_id`. -/
def Stream.getNextSeqId (s : Stream) (timeId : Nat) : Nat :=
  match s.entries.lookup timeId with
  | some e => e.lastEntrySeqId + 1
  | none => 0

/-- `StorageInner::get_next_seq_id`. -/
def getNextSeqId (streams : List (String × Stream)) (key : String) (timeId : Nat) : Nat :=
  match streams.lookup key with
  | some s => s.getNextSeqId timeId
  | none => 0

/-- `Storage::stream_add_value`, restricted to the keyspace mutation (the
XREAD-waiter notification that follows a successful insert is connection
plumbing and does not touch the stream map); `SystemTime::now()` is the
explicit `nowMs`.  Auto ids always get sequence number 0.  NOTE (faithful
to the source): when the key is new, the freshly created stream is
inserted into the map even if `add_entry` failed. -/
def streamAddValue (streams : List (String × Stream)) (key : String)
    (sid : StreamId) (values : List Value) (nowMs : Nat) :
    Except OpError StreamId × List (String × Stream) :=
  let ids : Nat × Nat :=
    match sid with
    | .value t q => (t, q)
    | .auto => (nowMs, 0)
    | .partialAuto t =>
        let q := getNextSeqId streams key t
        (t, if t = 0 ∧ q = 0 then 1 else q)
  match streams.lookup key with
  | some s =>
      match s.addEntry ids.1 ids.2 values with
      | .ok (ret, s1) => (.ok ret, hmInsert streams key s1)
      | .error e => (.error e, streams)
  | none =>
      match Stream.new.addEntry ids.1 ids.2 values with
      | .ok (ret, s1) => (.ok ret, hmInsert streams key s1)
      | .error e => (.error e, hmInsert streams key Stream.new)

/-- One XRANGE reply row: `[ "<time>-<seq>", [field, value, …] ]`. -/
def rowValue (timeId seqId : Nat) (values : List Value) : Value :=
  .array (some [.simpleString (natToBytes timeId ++ [45] ++ natToBytes seqId),
                .array (some values)])

/-- Inner loop of `Stream::get_range` over one bucket: `continue` when
`seq_id < start_seq_id`, `break` when `end_seq_id < seq_id`, where
`end_seq_id` is the explicit end sequence or the bucket's
`last_entry_seq_id`.  NOTE: this runs in EVERY visited bucket, not only
the boundary ones. -/
def entryRowsLoop (timeId startSeqId endSeqId : Nat) :
    List (Nat × List Value) → List Value
  | [] => []
  | (seqId, values) :: rest =>
      if seqId < startSeqId then entryRowsLoop timeId startSeqId endSeqId rest
      else if endSeqId < seqId then []
      else rowValue timeId seqId values :: entryRowsLoop timeId startSeqId endSeqId rest

/-- Outer loop of `Stream::get_range` over the buckets: `continue` when
`time_id < start_time_id`, `break` when `end_time_id < time_id`. -/
def getRangeLoop (startTimeId endTimeId startSeqId : Nat) (endSeqIdOpt : Option Nat) :
    List (Nat × StreamEntry) → List Value
  | [] => []
  | (timeId, entry) :: rest =>
      if timeId < startTimeId then
        getRangeLoop startTimeId endTimeId startSeqId endSeqIdOpt rest
      else if endTimeId < timeId then []
      else
        entryRowsLoop timeId startSeqId (endSeqIdOpt.getD entry.lastEntrySeqId) entry.data
          ++ getRangeLoop startTimeId endTimeId startSeqId endSeqIdOpt rest

/-- `Stream::get_range`: `Auto` (the wire `-`/`+`) resolves the start to
(0,0) and the end to (last time bucket, per-bucket last seq);
`PartialAuto t` resolves to (t, 0) resp. (t, per-bucket last seq). -/
def Stream.getRange (s : Stream) (start fin : StreamId) : Except OpError Value :=
  let st : Nat × Nat :=
    match start with
    | .value t q => (t, q)
    | .auto => (0, 0)
    | .partialAuto t => (t, 0)
  let en : Option Nat × Option Nat :=
    match fin with
    | .value t q => (some t, some q)
    | .auto => (none, none)
    | .partialAuto t => (some t, none)
  let endTimeId := en.1.getD s.lastEntryTimeId
  .ok (.array (some (getRangeLoop st.1 endTimeId st.2 en.2 s.entries)))

/-- `Storage::stream_get_range`. -/
def streamGetRange (streams : List (String × Stream)) (key : String)
    (start fin : StreamId) : Except OpError Value :=
  match streams.lookup key with
  | some s => s.getRange start fin
  | none => .error .keyAbsent

/-! ## Connection context and transaction FSM

After `codecrafters-redis/src/transaction.rs` and `conn.rs`.  The TCP
stream is modelled by the byte sequence written to it. -/

/-- `Transaction`: queued events keep (command name, args). -/
inductive Transaction where
  | none
  | pending (events : List (String × List Value))
  | executing (results : List Value)
  deriving DecidableEq

/-- `Transaction::is_executing`. -/
def Transaction.isExecuting : Transaction → Bool
  | .executing _ => true
  | _ => false

/-- `Transaction::record_result` (the `Executing` case; other states are
`unreachable!` and never hit through `write_value`). -/
def Transaction.recordResult (t : Transaction) (v : Value) : Transaction :=
  match t with
  | .executing buf => .executing (buf ++ [v])
  | t => t

/-- The per-connection context `Conn`: its transaction state and the bytes
written to the client socket. -/
structure Conn where
  transaction : Transaction
  socketOut : List Nat
  deriving DecidableEq

/-- `Conn::write_value`: while `Executing` a transaction, record the value
into the buffer; otherwise serialize it and write it to the socket. -/
def writeValue (c : Conn) (v : Value) : Conn :=
  if c.transaction.isExecuting then
    { c with transaction := c.transaction.recordResult v }
  else
    { c with socketOut := c.socketOut ++ encodeValue v }

/-! ## Command handlers (reply construction)

After `codecrafters-redis/src/command/*.rs`. -/

/-- Reply value of `handle_get_command` (`get.rs`): a stored integer is
reformatted as a decimal bulk string, a missing/expired key as a null
bulk string. -/
def getReplyValue (g : Option Value) : Value :=
  match g with
  | some (.integer i) => .bulkString (some (intToBytes i))
  | some v => v
  | none => .bulkString none

/-- `handle_get_command` (`get.rs`): compute the reply and write its bytes
DIRECTLY to `conn.stream` (lines 31-36) — NOT through `Conn::write_value`
— so the write is identical in every transaction state. -/
def handleGet (c : Conn) (data : KvData) (key : String) (now : Nat) : Conn × KvData :=
  let g := storageGet data key now
  ({ c with socketOut := c.socketOut ++ encodeValue (getReplyValue g.1) }, g.2)

/-- Rust `str::parse::<i64>` on the UTF-8 view of a byte payload: one
optional leading sign, at least one ASCII digit, nothing else, and the
value must fit in a signed 64-bit integer.  (A payload that is not valid
UTF-8 cannot consist solely of signs and digits, so the `String::from_utf8`
step of `set.rs` is absorbed into the digit check.) -/
def parseI64 (bs : List Nat) : Option Int :=
  let digitsOk := fun (ds : List Nat) => !ds.isEmpty && ds.all fun b => 48 ≤ b && b ≤ 57
  let digitsVal := fun (ds : List Nat) =>
    (ds.foldl (fun acc b => acc * 10 + (b - 48)) 0 : Nat)
  match bs with
  | 43 :: rest =>
      if digitsOk rest then
        if (digitsVal rest : Int) ≤ 2 ^ 63 - 1 then some (digitsVal rest) else none
      else none
  | 45 :: rest =>
      if digitsOk rest then
        if (digitsVal rest : Int) ≤ 2 ^ 63 then some (-(digitsVal rest : Int)) else none
      else none
  | _ =>
      if digitsOk bs then
        if (digitsVal bs : Int) ≤ 2 ^ 63 - 1 then some (digitsVal bs) else none
      else none

/-- The integer coercion of `handle_set_command` (`set.rs`, BulkString
branch): a payload that parses as an i64 is stored as an `Integer`,
anything else is stored as the original bulk string. -/
def setCoerce (v : List Nat) : Value :=
  match parseI64 v with
  | some n => .integer n
  | none => .bulkString (some v)

/-- `handle_set_command` (`set.rs`) acting on the keyspace: coerce, then
`Storage::insert` with the optional PX duration. -/
def handleSetData (data : KvData) (key : String) (v : List Nat)
    (duration : Option Nat) (now : Nat) : KvData :=
  storageInsert data key (setCoerce v) duration now

/-- Reply of `handle_llen_command` (`llen.rs`): a missing key reads as
length 0, other errors become their message frame. -/
def llenReply (r : Except OpError Nat) : Value :=
  match r with
  | .ok v => .integer v
  | .error .keyAbsent => .integer 0
  | .error e => e.toMessage

/-- Reply of `handle_lpop_command` (`lpop.rs`): NOTE the `KeyAbsent` arm
replies with the integer 0 (the same arm as LLEN), while a present but
empty list replies with a null bulk string. -/
def lpopReply (r : Except OpError (Option Value)) : Value :=
  match r with
  | .ok (some v) => v
  | .ok none => .bulkString none
  | .error .keyAbsent => .integer 0
  | .error e => e.toMessage

/-- The reply value built by `handle_blpop_command` (`blpop.rs`).  The
blocking wait is concurrency and is abstracted by `waitResult`: `some v`
when a pusher delivered `v` through the one-shot channel before the
timeout, `none` when the timer won.  On an immediately available element
the source replies with the BARE element; on the blocked path it replies
`[key, delivered]` where a timeout leaves a null bulk string in the
second slot. -/
def blpopContent (popResult : Except OpError (Option Value)) (key : String)
    (waitResult : Option Value) : Value :=
  match popResult with
  | .ok (some v) => v
  | .ok none =>
      .array (some [.bulkString (some (strBytes key)),
                    waitResult.getD (.bulkString none)])
  | .error .keyAbsent =>
      .array (some [.bulkString (some (strBytes key)),
                    waitResult.getD (.bulkString none)])
  | .error e => e.toMessage

/-! ## Replication

After `codecrafters-redis/src/replication/mod.rs`.  Each replica socket is
modelled by the byte stream written to it. -/

/-- `ReplicationInner`. -/
structure ReplicationInner where
  master : Option (Nat × Nat)
  id : List Nat
  offset : Nat
  replica : List (List Nat)
  deriving DecidableEq

/-- `ReplicationState::new` with the fixed 40-hex id. -/
def replicationNew (master : Option (Nat × Nat)) : ReplicationInner :=
  ⟨master, strBytes "8371b4fb1155b71f4a04d3e1bc3e18c4a990aeeb", 0, []⟩

/-- `ReplicationInner::info`: the `# Replication` bulk string with the
role, the replication id and the current offset. -/
def replicationInfo (r : ReplicationInner) : Value :=
  .bulkString (some (
    strBytes "# Replication" ++ [10] ++
    (if r.master.isSome then strBytes "role:slave" else strBytes "role:master") ++ [10] ++
    strBytes "master_replid:" ++ r.id ++ [10] ++
    strBytes "master_repl_offset:" ++ natToBytes r.offset ++ [10]))

/-- `ReplicationInner::set_replica`: retain the socket. -/
def setReplica (r : ReplicationInner) (sock : List Nat) : ReplicationInner :=
  { r with replica := r.replica ++ [sock] }

/-- `ReplicationInner::sync_command`: the original command array is
serialized and written to every replica socket (through a fresh `Conn`
with transaction state `None`, hence a plain socket write).  Nothing
else — in particular `offset` — is updated. -/
def syncCommand (r : ReplicationInner) (args : List Value) : ReplicationInner :=
  { r with replica := r.replica.map fun sink => sink ++ encodeValue (.array (some args)) }

/-- Whether a `Value` is a list (`Value::Array`). -/
def isArrayValue : Value → Bool
  | .array _ => true
  | _ => false

/-- All (time, seq, field-values) records of a stream in stored order. -/
def flattenStream (s : Stream) : List (Nat × Nat × List Value) :=
  s.entries.flatMap fun te => te.2.data.map fun qv => (te.1, qv.1, qv.2)

/-! ## Helper lemmas -/

theorem lookup_hmInsert {α : Type} (l : List (String × α)) (key : String) (v : α) :
    (hmInsert l key v).lookup key = some v := by
  induction l with
  | nil => simp [hmInsert, List.lookup]
  | cons p rest ih =>
      by_cases h : p.1 = key
      · simp [hmInsert, h, List.lookup]
      · have hb : (key == p.1) = false := beq_eq_false_iff_ne.mpr (Ne.symm h)
        simpa [hmInsert, h, List.lookup, hb] using ih

theorem lookup_btInsert_self {α : Type} (l : List (Nat × α)) (k : Nat) (v : α) :
    (btInsert l k v).lookup k = some v := by
  induction l with
  | nil => simp [btInsert, List.lookup]
  | cons p rest ih =>
      rcases Nat.lt_trichotomy k p.1 with h | h | h
      · simp [btInsert, h, List.lookup]
      · simp [btInsert, h, List.lookup]
      · have h1 : ¬ k < p.1 := Nat.not_lt.mpr (Nat.le_of_lt h)
        have h2 : k ≠ p.1 := Nat.ne_of_gt h
        have hb : (k == p.1) = false := beq_eq_false_iff_ne.mpr h2
        simpa [btInsert, h1, h2, List.lookup, hb] using ih

/-! # Claim theorems -/

/-- C1.  The codec does NOT round-trip: `Value::Null` encodes to `_\r\n`
but `parse_any` has no arm for the `_` type byte and fails with
`UnknownPrefix` at position 0; a null `Array` encodes to `*1\r\n`
(`serialize_seq(Some(1))` with no elements) whose decoding runs out of
input with `EOF`; and even the grammar's null-array frame `*-1\r\n` is
undecodable because `parse_any` never consumes the `*` before scanning
for `-1\r\n`, so the count is read as 1 and decoding again ends in `EOF`.
The codec's own test suite exercises the first and third inputs
(`null.rs::decode_null`, `array.rs::test_decode_array`), so this is a bug
in the code, not in the spec. -/
theorem c1_codec_roundtrip_code_bug :
    fromBytesValue (encodeValue Value.null) = Except.error (RdError.unknownPfx 0 95) ∧
    fromBytesValue (encodeValue (Value.array none)) = Except.error RdError.eof ∧
    fromBytesValue [42, 45, 49, 13, 10] = Except.error RdError.eof :=
  ⟨rfl, rfl, rfl⟩

/-- C3.  During `EXEC` (transaction state `Executing`) the GET handler
does NOT record its reply in the results buffer: `handle_get_command`
writes the serialized reply straight to the client socket (`get.rs`
lines 31-36), bypassing `Conn::write_value`, so the buffer stays empty
and the socket receives the bytes immediately — contradicting both the
spec and the buffering contract documented in `transaction.rs` and
implemented by `Conn::write_value` (second conjunct: the intended path
does buffer and leaves the socket untouched). -/
theorem c3_exec_reply_buffer_code_bug :
    handleGet ⟨.executing [], []⟩
        [("k", ⟨.bulkString (some (strBytes "v")), none⟩)] "k" 0
      = (⟨.executing [], encodeValue (.bulkString (some (strBytes "v")))⟩,
         [("k", ⟨.bulkString (some (strBytes "v")), none⟩)]) ∧
    writeValue ⟨.executing [], []⟩ (.simpleString (strBytes "OK"))
      = ⟨.executing [.simpleString (strBytes "OK")], []⟩ :=
  ⟨rfl, rfl⟩

/-- C7 counterexample.  The claim's reply shapes are wrong on two of the
three paths: when the timeout elapses without delivery the reply is the
two-element array `[key, null bulk string]`, not a null array; and when an
element is immediately available `handle_blpop_command` replies with the
bare element, not `[key, element]`. -/
theorem c7_blpop_reply_counterexample :
    blpopContent (.ok none) "q" none
      = Value.array (some [.bulkString (some (strBytes "q")), .bulkString none]) ∧
    blpopContent (.ok none) "q" none ≠ Value.array none ∧
    blpopContent (.ok (some (.simpleString (strBytes "x")))) "q" none
      = Value.simpleString (strBytes "x") ∧
    blpopContent (.ok (some (.simpleString (strBytes "x")))) "q" none
      ≠ Value.array (some [.bulkString (some (strBytes "q")),
                           .simpleString (strBytes "x")]) := by
  refine ⟨rfl, by decide, rfl, by decide⟩

/-- C7 amended.  BLPOP reply shapes as the code builds them: an element
delivered while blocked (pop found nothing — `Ok(None)` on an empty list
or `Err(KeyAbsent)` — and the waiter channel fired) yields
`[key, element]`; an immediately available element yields the bare
element; a timeout yields `[key, null bulk string]` (never a null
array). -/
theorem c7_blpop_reply_amended (key : String) (v : Value) :
    blpopContent (.ok none) key (some v)
      = Value.array (some [.bulkString (some (strBytes key)), v]) ∧
    blpopContent (.error .keyAbsent) key (some v)
      = Value.array (some [.bulkString (some (strBytes key)), v]) ∧
    blpopContent (.ok (some v)) key none = v ∧
    blpopContent (.ok none) key none
      = Value.array (some [.bulkString (some (strBytes key)), .bulkString none]) :=
  ⟨rfl, rfl, rfl, rfl⟩

/-- C8 counterexample.  LPOP on an absent key replies with the integer 0
(the `KeyAbsent` arm of `lpop.rs` mirrors LLEN), not with a null bulk
string; the null bulk string is the reply for a present-but-empty list. -/
theorem c8_lpop_absent_counterexample :
    arrayPopFront ([] : KvData) "k" none = some (.error .keyAbsent, []) ∧
    lpopReply (.error .keyAbsent) = Value.integer 0 ∧
    lpopReply (.error .keyAbsent) ≠ Value.bulkString none ∧
    lpopReply (.ok none) = Value.bulkString none := by
  refine ⟨rfl, rfl, by decide, rfl⟩

/-- C8 amended.  For every key absent from the keyspace: the storage layer
reports `KeyAbsent` for both operations, LPOP replies with the integer 0
(not a null bulk string) leaving the data unchanged, and LLEN replies with
the integer 0. -/
theorem c8_absent_key_amended (data : KvData) (key : String)
    (h : data.lookup key = none) :
    (∀ count, arrayPopFront data key count = some (.error .keyAbsent, data)) ∧
    lpopReply (.error .keyAbsent) = Value.integer 0 ∧
    arrayGetLength data key = .error .keyAbsent ∧
    llenReply (arrayGetLength data key) = Value.integer 0 := by
  refine ⟨fun count => ?_, rfl, ?_, ?_⟩ <;>
    simp [arrayPopFront, arrayGetLength, llenReply, h]

theorem c8_absent_key_amended_witness :
    (([] : KvData).lookup "k" = none) ∧
    ((∀ count, arrayPopFront ([] : KvData) "k" count = some (.error .keyAbsent, [])) ∧
     lpopReply (.error .keyAbsent) = Value.integer 0 ∧
     arrayGetLength ([] : KvData) "k" = .error .keyAbsent ∧
     llenReply (arrayGetLength ([] : KvData) "k") = Value.integer 0) :=
  ⟨rfl, c8_absent_key_amended [] "k" rfl⟩

/-- C9 counterexample.  A concrete fan-out: a master with one replica
re-emits `SET k v` (27 bytes on the wire) to the replica, yet its
`offset` stays 0 — `sync_command` never touches `offset`, so the offset
does not increase by the emitted byte count as claimed. -/
theorem c9_offset_counterexample :
    (syncCommand (setReplica (replicationNew none) [])
        [.bulkString (some (strBytes "SET")), .bulkString (some (strBytes "k")),
         .bulkString (some (strBytes "v"))]).offset = 0 ∧
    (syncCommand (setReplica (replicationNew none) [])
        [.bulkString (some (strBytes "SET")), .bulkString (some (strBytes "k")),
         .bulkString (some (strBytes "v"))]).replica
      = [encodeValue (.array (some
          [.bulkString (some (strBytes "SET")), .bulkString (some (strBytes "k")),
           .bulkString (some (strBytes "v"))]))] ∧
    (encodeValue (.array (some
        [.bulkString (some (strBytes "SET")), .bulkString (some (strBytes "k")),
         .bulkString (some (strBytes "v"))]))).length = 27 :=
  ⟨rfl, rfl, rfl⟩

/-- C9 amended.  `sync_command` re-emits the original RESP array on every
replica socket, but the master's `offset` is never updated (it keeps its
initial value, 0), so `INFO replication` keeps reporting the initial
offset no matter how many bytes were fanned out. -/
theorem c9_fanout_amended (r : ReplicationInner) (args : List Value) :
    (syncCommand r args).replica
      = r.replica.map (fun sink => sink ++ encodeValue (.array (some args))) ∧
    (syncCommand r args).offset = r.offset ∧
    replicationInfo (syncCommand r args) = replicationInfo r :=
  ⟨rfl, rfl, rfl⟩

/-- C10.  SET's integer coercion composed with GET: for every byte payload
`v`, if `v` parses as a signed 64-bit decimal integer (optional sign,
digits, in range) the stored value is that integer and GET returns its
canonical decimal rendering (`i64::to_string`: no leading zeros, no `+`),
so "+5" and "007" read back as "5" and "7"; otherwise GET returns the
payload byte-for-byte. -/
theorem c10_set_integer_coercion (data : KvData) (key : String) (v : List Nat)
    (now : Nat) :
    (storageGet (handleSetData data key v none now) key now).1
      = some (setCoerce v) ∧
    getReplyValue (storageGet (handleSetData data key v none now) key now).1
      = (match parseI64 v with
         | some n => Value.bulkString (some (intToBytes n))
         | none => Value.bulkString (some v)) := by
  have h : (handleSetData data key v none now).lookup key
      = some ⟨setCoerce v, none⟩ :=
    lookup_hmInsert data key _
  constructor
  · simp [storageGet, h, ValueCell.liveValue]
  · simp only [storageGet, h, ValueCell.liveValue]
    unfold setCoerce getReplyValue
    cases parseI64 v <;> simp

/-- C2 counterexample.  With key `k` holding the integer 5 and one BLPOP
waiter registered for `k`, RPUSH of one element returns WRONGTYPE and
leaves the value map unchanged — but the waiter has been removed from the
registry and has received the pushed element, because `insert_list` drains
waiters before it examines the stored cell's type. -/
theorem c2_wrongtype_counterexample :
    insertList [("k", ⟨.integer 5, none⟩)] ["k"] "k"
        [.simpleString (strBytes "x")] true false
      = (.error .typeMismatch, [("k", ⟨.integer 5, none⟩)], [],
         [("k", .simpleString (strBytes "x"))]) ∧
    (["k"] : LpopWaiters) ≠ ([] : LpopWaiters) :=
  ⟨rfl, by decide⟩

/-- C2 amended.  For every state and key whose cell holds a non-list
value, LPUSH/RPUSH (`insert_list`, any `create`/`prepend` flags) returns
the WRONGTYPE error and leaves the value map unchanged — but BEFORE the
type check it runs the waiter drain: pending blocking-list waiters for
the key are removed FIFO and each receives one pushed element. -/
theorem c2_wrongtype_amended (data : KvData) (waiters : LpopWaiters) (key : String)
    (value : List Value) (create prepend : Bool) (cell : ValueCell)
    (hc : data.lookup key = some cell) (hv : isArrayValue cell.value = false) :
    insertList data waiters key value create prepend
      = (.error .typeMismatch, data,
         (drainWaiters key value waiters [] 0).2.1,
         (drainWaiters key value waiters [] 0).2.2.1) := by
  unfold insertList
  rw [hc]
  cases h : cell.value <;> simp_all [isArrayValue]

theorem c2_wrongtype_amended_witness :
    (([("k", ⟨.integer 5, none⟩)] : KvData).lookup "k"
        = some ⟨.integer 5, none⟩) ∧
    (isArrayValue (Value.integer 5) = false) ∧
    insertList [("k", ⟨.integer 5, none⟩)] ["k"] "k"
        [.simpleString (strBytes "x")] true false
      = (.error .typeMismatch, [("k", ⟨.integer 5, none⟩)],
         (drainWaiters "k" [.simpleString (strBytes "x")] ["k"] [] 0).2.1,
         (drainWaiters "k" [.simpleString (strBytes "x")] ["k"] [] 0).2.2.1) :=
  ⟨rfl, rfl,
   c2_wrongtype_amended [("k", ⟨.integer 5, none⟩)] ["k"] "k"
     [.simpleString (strBytes "x")] true false ⟨.integer 5, none⟩ rfl rfl⟩

/-- C4 counterexample.  A key holding a one-element list whose expiration
(5) has passed (now = 10): GET treats it as absent and purges it, but
LLEN's storage operation still returns length 1 — unlike a genuinely
missing key, which yields `KeyAbsent` and the reply 0 — so the list
operations do not behave as on a missing key. -/
theorem c4_expiry_counterexample :
    storageGet [("k", ⟨.array (some [.simpleString (strBytes "a")]), some 5⟩)] "k" 10
      = (none, []) ∧
    arrayGetLength [("k", ⟨.array (some [.simpleString (strBytes "a")]), some 5⟩)] "k"
      = .ok 1 ∧
    arrayGetLength ([] : KvData) "k" = .error .keyAbsent ∧
    llenReply (.ok 1) ≠ llenReply (.error .keyAbsent) :=
  ⟨rfl, rfl, rfl, by decide⟩

/-- C4 amended.  Only GET respects expiration: on a key whose cell is
expired it returns `none` and purges the cell.  The list operations never
consult the expiration field: LLEN (`array_get_length`) returns the
stored list's length and LRANGE (`lrange` with bounds 0..-1) returns the
whole stored list even though the cell is expired. -/
theorem c4_expiry_amended (data : KvData) (key : String) (now d : Nat)
    (cell : ValueCell) (vs : List Value)
    (hc : data.lookup key = some cell) (hv : cell.value = .array (some vs))
    (hd : cell.expiration = some d) (hpast : d ≤ now) (hne : vs ≠ []) :
    storageGet data key now = (none, hmRemove data key) ∧
    arrayGetLength data key = .ok vs.length ∧
    lrangeOp data key 0 (-1) = some (.ok (.array (some vs))) := by
  obtain ⟨cval, cexp⟩ := cell
  dsimp at hv hd
  subst hv
  subst hd
  have hnl : ¬ now < d := by omega
  refine ⟨?_, ?_, ?_⟩
  · simp [storageGet, hc, ValueCell.liveValue, hnl]
  · simp [arrayGetLength, hc, arrLen]
  · cases vs with
    | nil => exact absurd rfl hne
    | cons a tl =>
        simp only [lrangeOp, hc]
        have h1 : arrIsNullOrEmpty (some (a :: tl)) = false := by
          simp [arrIsNullOrEmpty, arrIsNull, arrIsEmpty]
        have h2 : ¬ arrLen (some (a :: tl)) < (Int.natAbs (-1)) := by
          simp [arrLen]
        simp only [h1, Bool.false_eq_true, if_false, if_neg h2]
        norm_num [arrLen]

/-- Concrete instantiation of `c4_expiry_amended`. -/
theorem c4_expiry_amended_witness :
    (([("k", ⟨.array (some [.simpleString (strBytes "a")]), some 5⟩)] : KvData).lookup "k"
        = some ⟨.array (some [.simpleString (strBytes "a")]), some 5⟩) ∧
    ((5 : Nat) ≤ 10) ∧
    (([Value.simpleString (strBytes "a")] : List Value) ≠ []) ∧
    (storageGet [("k", ⟨.array (some [.simpleString (strBytes "a")]), some 5⟩)] "k" 10
        = (none, hmRemove [("k", ⟨.array (some [.simpleString (strBytes "a")]), some 5⟩)] "k") ∧
     arrayGetLength [("k", ⟨.array (some [.simpleString (strBytes "a")]), some 5⟩)] "k"
        = .ok [Value.simpleString (strBytes "a")].length ∧
     lrangeOp [("k", ⟨.array (some [.simpleString (strBytes "a")]), some 5⟩)] "k" 0 (-1)
        = some (.ok (.array (some [.simpleString (strBytes "a")])))) :=
  ⟨rfl, by omega, by decide,
   c4_expiry_amended _ "k" 10 5 ⟨.array (some [.simpleString (strBytes "a")]), some 5⟩
     [.simpleString (strBytes "a")] rfl rfl rfl (by omega) (by decide)⟩

/-- A successful `add_entry` with sequence id 0 can only take the
fresh-bucket branch (in an existing bucket `seq <= last_entry_seq_id`
always holds for seq 0), so the time id is nonzero and the new bucket
records last seq 0. -/
theorem addEntry_seq0_ok {s : Stream} {T : Nat} {vs : List Value}
    {ret : StreamId} {s1 : Stream}
    (h : s.addEntry T 0 vs = .ok (ret, s1)) :
    T ≠ 0 ∧ ret = .value T 0 ∧ s1.lastEntryTimeId = T ∧
      s1.entries.lookup T = some ⟨0, [(0, vs)]⟩ := by
  unfold Stream.addEntry at h
  by_cases hT : T = 0
  · simp [hT] at h
  · by_cases hlt : T < s.lastEntryTimeId
    · simp [hT, hlt] at h
    · cases hl : s.entries.lookup T with
      | some e => simp [hT, hlt, hl, Nat.zero_le] at h
      | none =>
          simp only [hT, hlt, hl, false_and, if_false, if_neg hlt] at h
          obtain ⟨h1, h2⟩ := Prod.mk.injEq .. ▸ (Except.ok.injEq .. ▸ h)
          refine ⟨hT, h1.symm, ?_, ?_⟩
          · rw [← h2]
          · rw [← h2]
            exact lookup_btInsert_self s.entries T ⟨0, [(0, vs)]⟩

/-- C5 counterexample.  Two consecutive Auto XADDs in the same
millisecond (nowMs = 5) on a fresh stream: the first succeeds with id
5-0, the second fails with `TooSmallStreamId` — it does not succeed with
a larger sequence number as the claim states. -/
theorem c5_xadd_auto_counterexample :
    (streamAddValue [] "s" .auto [] 5).1 = .ok (.value 5 0) ∧
    (streamAddValue (streamAddValue [] "s" .auto [] 5).2 "s" .auto [] 5).1
      = .error .tooSmallStreamId :=
  ⟨rfl, rfl⟩

/-- C5 amended.  `XADD key *` resolves to (current millisecond, seq 0).
Whenever such an Auto XADD succeeds, its id is `<nowMs>-0`, and a second
Auto XADD on the same key in the same millisecond always fails with
`TooSmallStreamId` (ids produced by `*` are strictly increasing only
across strictly increasing millisecond timestamps). -/
theorem c5_xadd_auto_amended (streams : List (String × Stream)) (key : String)
    (vs vs' : List Value) (nowMs : Nat) (ret : StreamId)
    (h : (streamAddValue streams key .auto vs nowMs).1 = .ok ret) :
    ret = .value nowMs 0 ∧
    (streamAddValue (streamAddValue streams key .auto vs nowMs).2 key .auto vs' nowMs).1
      = .error .tooSmallStreamId := by
  unfold streamAddValue at h ⊢
  cases hl : streams.lookup key with
  | some s =>
      simp only [hl] at h ⊢
      cases ha : s.addEntry nowMs 0 vs with
      | error e => simp [ha] at h
      | ok p =>
          obtain ⟨r, s1⟩ := p
          obtain ⟨hT, hr, hlast, hbucket⟩ := addEntry_seq0_ok ha
          simp only [ha] at h ⊢
          have hre : r = ret := by simpa using h
          refine ⟨hre ▸ hr, ?_⟩
          rw [lookup_hmInsert]
          unfold Stream.addEntry
          simp [hT, hlast, hbucket]
  | none =>
      simp only [hl] at h ⊢
      cases ha : Stream.new.addEntry nowMs 0 vs with
      | error e => simp [ha] at h
      | ok p =>
          obtain ⟨r, s1⟩ := p
          obtain ⟨hT, hr, hlast, hbucket⟩ := addEntry_seq0_ok ha
          simp only [ha] at h ⊢
          have hre : r = ret := by simpa using h
          refine ⟨hre ▸ hr, ?_⟩
          rw [lookup_hmInsert]
          unfold Stream.addEntry
          simp [hT, hlast, hbucket]

theorem filter_map_comm {α β : Type} (f : α → β) (p : β → Bool) (l : List α) :
    (l.map f).filter p = (l.filter fun a => p (f a)).map f := by
  induction l with
  | nil => rfl
  | cons a tl ih => by_cases h : p (f a) <;> simp [h, ih]

/-- The inner loop of `get_range` on a seq-sorted bucket keeps exactly the
records with `start_seq <= seq <= end_seq`. -/
theorem entryRowsLoop_eq_filter (t sS eS : Nat) (data : List (Nat × List Value))
    (hp : data.Pairwise (fun a b => a.1 < b.1)) :
    entryRowsLoop t sS eS data
      = (data.filter fun qv => decide (sS ≤ qv.1 ∧ qv.1 ≤ eS)).map
          fun qv => rowValue t qv.1 qv.2 := by
  induction data with
  | nil => rfl
  | cons hd tl ih =>
      obtain ⟨q, vals⟩ := hd
      rw [List.pairwise_cons] at hp
      by_cases h1 : q < sS
      · have hx : ¬ (sS ≤ q ∧ q ≤ eS) := by omega
        simp [entryRowsLoop, h1, hx, ih hp.2]
      · by_cases h2 : eS < q
        · have hx : ¬ (sS ≤ q ∧ q ≤ eS) := by omega
          simp [entryRowsLoop, h1, h2, hx]
          intro a b hab _
          have := hp.1 (a, b) hab
          omega
        · have hx : sS ≤ q ∧ q ≤ eS := by omega
          simp [entryRowsLoop, h1, h2, hx, ih hp.2]

/-- The outer loop of `get_range` on a time-sorted stream visits exactly
the buckets with `start_time <= time <= end_time` and applies the inner
loop in each. -/
theorem getRangeLoop_eq_flatMap (sT eT sS eS : Nat)
    (entries : List (Nat × StreamEntry))
    (hp : entries.Pairwise (fun a b => a.1 < b.1))
    (hin : ∀ te ∈ entries, te.2.data.Pairwise (fun a b => a.1 < b.1)) :
    getRangeLoop sT eT sS (some eS) entries
      = entries.flatMap fun te =>
          if sT ≤ te.1 ∧ te.1 ≤ eT then
            (te.2.data.filter fun qv => decide (sS ≤ qv.1 ∧ qv.1 ≤ eS)).map
              fun qv => rowValue te.1 qv.1 qv.2
          else [] := by
  induction entries with
  | nil => rfl
  | cons hd tl ih =>
      obtain ⟨t, entry⟩ := hd
      rw [List.pairwise_cons] at hp
      have hinhd : entry.data.Pairwise (fun a b => a.1 < b.1) := hin ⟨t, entry⟩ (by simp)
      have hintl : ∀ te ∈ tl, te.2.data.Pairwise (fun a b => a.1 < b.1) :=
        fun te hte => hin te (by simp [hte])
      by_cases h1 : t < sT
      · have hx : ¬ (sT ≤ t ∧ t ≤ eT) := by omega
        simp [getRangeLoop, h1, hx, ih hp.2 hintl]
      · by_cases h2 : eT < t
        · have hx : ¬ (sT ≤ t ∧ t ≤ eT) := by omega
          simp [getRangeLoop, h1, h2, hx]
          intro a b hab hsa hae q vals hqv hsq
          have := hp.1 (a, b) hab
          omega
        · have hx : sT ≤ t ∧ t ≤ eT := by omega
          simp only [getRangeLoop, if_neg h1, if_neg h2, List.flatMap_cons, if_pos hx,
            Option.getD_some]
          rw [entryRowsLoop_eq_filter t sS eS entry.data hinhd, ih hp.2 hintl]

/-- Bucket-wise filtering is the same as filtering the flattened record
list with the conjoined bounds (the time component is constant within a
bucket). -/
theorem flatMap_if_eq_filter_flatten (sT eT sS eS : Nat)
    (entries : List (Nat × StreamEntry)) :
    (entries.flatMap fun te =>
        if sT ≤ te.1 ∧ te.1 ≤ eT then
          (te.2.data.filter fun qv => decide (sS ≤ qv.1 ∧ qv.1 ≤ eS)).map
            fun qv => rowValue te.1 qv.1 qv.2
        else [])
      = ((entries.flatMap fun te => te.2.data.map fun qv => (te.1, qv.1, qv.2)).filter
          fun r => decide (sT ≤ r.1 ∧ r.1 ≤ eT ∧ sS ≤ r.2.1 ∧ r.2.1 ≤ eS)).map
            fun r => rowValue r.1 r.2.1 r.2.2 := by
  induction entries with
  | nil => rfl
  | cons hd tl ih =>
      obtain ⟨t, entry⟩ := hd
      simp only [List.flatMap_cons, List.filter_append, List.map_append, ← ih]
      congr 1
      rw [filter_map_comm (fun qv => ((t, qv.1, qv.2) : Nat × Nat × List Value))
            (fun r => decide (sT ≤ r.1 ∧ r.1 ≤ eT ∧ sS ≤ r.2.1 ∧ r.2.1 ≤ eS)) entry.data]
      by_cases hx : sT ≤ t ∧ t ≤ eT
      · rw [if_pos hx, List.map_map]
        have hcong :
            (entry.data.filter fun a =>
              decide (sT ≤ (t, a.1, a.2).1 ∧ (t, a.1, a.2).1 ≤ eT ∧
                sS ≤ (t, a.1, a.2).2.1 ∧ (t, a.1, a.2).2.1 ≤ eS))
              = entry.data.filter fun qv => decide (sS ≤ qv.1 ∧ qv.1 ≤ eS) := by
          apply List.filter_congr
          intro qv _
          simp only [decide_eq_decide]
          exact ⟨fun h => ⟨h.2.2.1, h.2.2.2⟩, fun h => ⟨hx.1, hx.2, h.1, h.2⟩⟩
        rw [hcong]
        rfl
      · rw [if_neg hx]
        have hnil : (entry.data.filter fun qv =>
            decide (sT ≤ t ∧ t ≤ eT ∧ sS ≤ qv.1 ∧ qv.1 ≤ eS)) = [] := by
          refine List.filter_eq_nil_iff.mpr ?_
          intro a _
          simp only [decide_eq_true_eq]
          intro hcon
          exact hx ⟨hcon.1, hcon.2.1⟩
        rw [hnil]
        rfl

/-- C6 counterexample.  Stream with entries 1-1, 2-0 and 3-1;
`XRANGE 1-1 3-1` returns only the rows for 1-1 and 3-1 although 2-0 lies
lexicographically between the bounds and is a stored record: the
`seq < start_seq` skip runs in the interior bucket 2 as well. -/
theorem c6_xrange_counterexample :
    (Stream.getRange ⟨3, [(1, ⟨1, [(1, [.integer 10])]⟩),
                          (2, ⟨0, [(0, [.integer 20])]⟩),
                          (3, ⟨1, [(1, [.integer 30])]⟩)]⟩
        (.value 1 1) (.value 3 1))
      = .ok (.array (some [rowValue 1 1 [.integer 10], rowValue 3 1 [.integer 30]])) ∧
    rowValue 2 0 [.integer 20]
      ∉ [rowValue 1 1 [.integer 10], rowValue 3 1 [.integer 30]] ∧
    (2, 0, [Value.integer 20])
      ∈ flattenStream ⟨3, [(1, ⟨1, [(1, [.integer 10])]⟩),
                           (2, ⟨0, [(0, [.integer 20])]⟩),
                           (3, ⟨1, [(1, [.integer 30])]⟩)]⟩ ∧
    ((1 : Nat) < 2 ∨ ((1 : Nat) = 2 ∧ (1 : Nat) ≤ 0)) ∧
    ((2 : Nat) < 3 ∨ ((2 : Nat) = 3 ∧ (0 : Nat) ≤ 1)) := by
  refine ⟨rfl, by decide, by decide, ?_, ?_⟩ <;> decide

/-- C6 amended.  For explicit bounds, `XRANGE` returns — in stored
(ascending) order — exactly the records whose time AND sequence components
both lie within the bounds: `start_time <= t <= end_time` and
`start_seq <= q <= end_seq`.  The sequence bounds are applied inside every
visited bucket, so a record in a strictly interior bucket whose seq falls
outside `[start_seq, end_seq]` is omitted (the claim's lexicographic
reading does not hold). -/
theorem c6_xrange_amended (s : Stream) (sT sS eT eS : Nat)
    (hp : s.entries.Pairwise (fun a b => a.1 < b.1))
    (hin : ∀ te ∈ s.entries, te.2.data.Pairwise (fun a b => a.1 < b.1)) :
    s.getRange (.value sT sS) (.value eT eS)
      = .ok (.array (some (((flattenStream s).filter fun r =>
          decide (sT ≤ r.1 ∧ r.1 ≤ eT ∧ sS ≤ r.2.1 ∧ r.2.1 ≤ eS)).map
            fun r => rowValue r.1 r.2.1 r.2.2))) := by
  show Except.ok (Value.array (some (getRangeLoop sT eT sS (some eS) s.entries)))
      = Except.ok (Value.array (some (((s.entries.flatMap fun te =>
          te.2.data.map fun qv => (te.1, qv.1, qv.2)).filter fun r =>
          decide (sT ≤ r.1 ∧ r.1 ≤ eT ∧ sS ≤ r.2.1 ∧ r.2.1 ≤ eS)).map
            fun r => rowValue r.1 r.2.1 r.2.2)))
  rw [getRangeLoop_eq_flatMap sT eT sS eS s.entries hp hin,
      flatMap_if_eq_filter_flatten]

/-- Concrete instantiation of `c6_xrange_amended`. -/
theorem c6_xrange_amended_witness :
    ((⟨3, [(1, ⟨1, [(1, [.integer 10])]⟩),
           (2, ⟨0, [(0, [.integer 20])]⟩),
           (3, ⟨1, [(1, [.integer 30])]⟩)]⟩ : Stream).entries.Pairwise
        (fun a b => a.1 < b.1)) ∧
    (∀ te ∈ (⟨3, [(1, ⟨1, [(1, [.integer 10])]⟩),
                  (2, ⟨0, [(0, [.integer 20])]⟩),
                  (3, ⟨1, [(1, [.integer 30])]⟩)]⟩ : Stream).entries,
        te.2.data.Pairwise (fun a b => a.1 < b.1)) ∧
    (Stream.getRange ⟨3, [(1, ⟨1, [(1, [.integer 10])]⟩),
                          (2, ⟨0, [(0, [.integer 20])]⟩),
                          (3, ⟨1, [(1, [.integer 30])]⟩)]⟩
        (.value 1 1) (.value 3 1))
      = .ok (.array (some (((flattenStream
            ⟨3, [(1, ⟨1, [(1, [.integer 10])]⟩),
                 (2, ⟨0, [(0, [.integer 20])]⟩),
                 (3, ⟨1, [(1, [.integer 30])]⟩)]⟩).filter fun r =>
          decide (1 ≤ r.1 ∧ r.1 ≤ 3 ∧ 1 ≤ r.2.1 ∧ r.2.1 ≤ 1)).map
            fun r => rowValue r.1 r.2.1 r.2.2))) :=
  ⟨by decide, by decide,
   c6_xrange_amended _ 1 1 3 1 (by decide) (by decide)⟩

/-- Concrete instantiation of `c5_xadd_auto_amended`. -/
theorem c5_xadd_auto_amended_witness :
    ((streamAddValue [] "s" .auto [] 5).1 = .ok (.value 5 0)) ∧
    ((StreamId.value 5 0) = .value 5 0 ∧
     (streamAddValue (streamAddValue [] "s" .auto [] 5).2 "s" .auto [] 5).1
       = .error .tooSmallStreamId) :=
  ⟨rfl, c5_xadd_auto_amended [] "s" [] [] 5 (.value 5 0) rfl⟩

end Redis
